import Mathlib

/-!
Verification development for the internal-linking analysis engine
(analyzer.py with its configuration constants in config.py).

The numeric columns of the pandas tables are modelled with exact rationals;
one cell of a raw numeric column is a `RawVal`, which also covers the NaN
and infinite cells that the sanitization step of the scorer handles.
The similarity engine works with real numbers, since its inverse document
frequency weights are logarithms.

The memoized similarity matrix field of the analyzer class is passed to the
opportunity generator as an explicit function argument, in the way the
method reads the field that `compute_similarity_matrix` fills.
-/

namespace SEO

/- The Batteries rational arithmetic primitives are shipped irreducible;
they are restored to ordinary reducibility so that concrete witness runs of
the engine evaluate inside proofs. -/
attribute [local semireducible] Rat.mul Rat.inv Rat.add Rat.sub

/-- One cell of a numeric pandas column as the scorer receives it after
to_numeric with coercion of errors: a finite number, NaN, or an infinity. -/
inductive RawVal where
  | num (q : ℚ)
  | nan
  | inf
  | ninf
deriving DecidableEq, Repr

/-- Line 34 of analyzer.py, the fillna applied to one cell right after the
numeric coercion: NaN becomes the per-column default, others pass through. -/
def toNumericFill (d : ℚ) : RawVal → RawVal
  | .nan => .num d
  | v => v

/-- Line 37 of analyzer.py: both infinities are replaced by NaN. -/
def replaceInfNan : RawVal → RawVal
  | .inf => .nan
  | .ninf => .nan
  | v => v

/-- The per-metric fillna of lines 38 to 41 of analyzer.py, extracting the
numeric value: NaN becomes the metric default. After `replaceInfNan` only
finite and NaN cells remain, so the remaining branches are unreachable. -/
def fillnaVal (d : ℚ) : RawVal → ℚ
  | .num q => q
  | _ => d

/-- pandas Series.clip with a lower bound only, on one cell. -/
def clipLower (lo q : ℚ) : ℚ := max lo q

/-- pandas Series.clip with both bounds, on one cell. -/
def clipRange (lo hi q : ℚ) : ℚ := min hi (max lo q)

/-- Sanitization of one Impressions cell, lines 31 to 38 of analyzer.py. -/
def sanitizeImpressions (v : RawVal) : ℚ :=
  clipLower 0 (fillnaVal 0 (replaceInfNan (toNumericFill 0 v)))

/-- Sanitization of one Position cell, lines 31 to 39 of analyzer.py; the
generic fill of line 34 uses 100 for this column. -/
def sanitizePosition (v : RawVal) : ℚ :=
  clipRange 1 100 (fillnaVal 100 (replaceInfNan (toNumericFill 100 v)))

/-- Sanitization of one Link Score cell, lines 31 to 40 of analyzer.py. -/
def sanitizeLinkScore (v : RawVal) : ℚ :=
  clipRange 0 100 (fillnaVal 0 (replaceInfNan (toNumericFill 0 v)))

/-- Sanitization of one Crawl Depth cell, lines 31 to 41 of analyzer.py.
The generic fill of line 34 uses 0 for this column, so a NaN cell is already
0 when the fillna with 1 of line 41 runs; only a former infinity becomes 1. -/
def sanitizeCrawlDepth (v : RawVal) : ℚ :=
  clipLower 0 (fillnaVal 1 (replaceInfNan (toNumericFill 0 v)))

/-- One row of the merged page table as the analyzer receives it. The four
scored metrics may hold NaN or infinite cells; Unique Inlinks is outside the
coercion loop of line 31 and is supplied as a finite numeric by the loader. -/
structure RawPage where
  address : String
  impressions : RawVal
  position : RawVal
  linkScore : RawVal
  crawlDepth : RawVal
  uniqueInlinks : ℚ
deriving DecidableEq, Repr

/-- One page row after the sanitization of lines 28 to 41 of analyzer.py.
The Clicks column is coerced by the same loop but feeds no scored quantity,
so it is not carried further. -/
structure Page where
  address : String
  impressions : ℚ
  position : ℚ
  linkScore : ℚ
  crawlDepth : ℚ
  uniqueInlinks : ℚ
deriving DecidableEq, Repr

/-- Lines 28 to 41 of analyzer.py applied to one row of the page table. -/
def sanitizePage (p : RawPage) : Page :=
  { address := p.address
    impressions := sanitizeImpressions p.impressions
    position := sanitizePosition p.position
    linkScore := sanitizeLinkScore p.linkScore
    crawlDepth := sanitizeCrawlDepth p.crawlDepth
    uniqueInlinks := p.uniqueInlinks }

/-- pandas Series.max of a column, 0 on the empty column (which pandas
reports as NaN; all its uses here are guarded by nonemptiness). -/
def colMax : List ℚ → ℚ
  | [] => 0
  | x :: xs => xs.foldl max x

/-- pandas Series.min of a column, dual to `colMax`. -/
def colMin : List ℚ → ℚ
  | [] => 0
  | x :: xs => xs.foldl min x

/-- The static helper of the analyzer class at lines 202 to 207: rescale a
column to the unit interval, or multiply it by zero when it has no spread. -/
def normalizeSeries (xs : List ℚ) : List ℚ :=
  if colMax xs = colMin xs then xs.map (fun x => x * 0)
  else xs.map (fun x => (x - colMin xs) / (colMax xs - colMin xs))

/-- The value `normalizeSeries` assigns to one cell of the column. -/
def normVal (xs : List ℚ) (x : ℚ) : ℚ :=
  if colMax xs = colMin xs then x * 0
  else (x - colMin xs) / (colMax xs - colMin xs)

/-- pandas Series.median: middle of the ascending sort, or the mean of the
two middle values on an even length; 0 on the empty column (pandas reports
NaN there; every use here is on a nonempty column or vacuous). -/
def median (xs : List ℚ) : ℚ :=
  let s := List.insertionSort (· ≤ ·) xs
  if xs.length = 0 then 0
  else if xs.length % 2 = 1 then s.getD (xs.length / 2) 0
  else (s.getD (xs.length / 2 - 1) 0 + s.getD (xs.length / 2) 0) / 2

/-- PRIORITY_WEIGHTS of config.py, impressions entry. -/
def priorityWeightImpressions : ℚ := 3 / 10

/-- PRIORITY_WEIGHTS of config.py, position entry. -/
def priorityWeightPosition : ℚ := 2 / 10

/-- PRIORITY_WEIGHTS of config.py, link score entry. -/
def priorityWeightLinkScore : ℚ := 3 / 10

/-- PRIORITY_WEIGHTS of config.py, depth entry. -/
def priorityWeightDepth : ℚ := 2 / 10

/-- MIN_SIMILARITY_THRESHOLD of config.py. -/
def minSimilarityThreshold : ℚ := 1 / 10

/-- MAX_OUTLINKS_WARNING of config.py. -/
def maxOutlinksWarning : ℚ := 100

/-- TOP_N_PAGES_TO_BOOST of config.py. -/
def topNPagesToBoost : ℕ := 50

/-- TOP_K_SUGGESTIONS_PER_PAGE of config.py. -/
def topKSuggestionsPerPage : ℕ := 10

/-- LINK_OPPORTUNITY_WEIGHTS of config.py, source strength entry. -/
def oppWeightSourceStrength : ℚ := 4 / 10

/-- LINK_OPPORTUNITY_WEIGHTS of config.py, thematic similarity entry. -/
def oppWeightSimilarity : ℚ := 4 / 10

/-- LINK_OPPORTUNITY_WEIGHTS of config.py, outlinks penalty entry. -/
def oppWeightOutlinksPenalty : ℚ := 1 / 10

/-- LINK_OPPORTUNITY_WEIGHTS of config.py, target need entry. -/
def oppWeightTargetNeed : ℚ := 1 / 10

/-- One row of the table `calculate_priority_score` returns: the sanitized
page with its four normalized metrics, the weighted Priority Score of
lines 50 to 55, and the Has Potential flag of lines 64 to 68. -/
structure ScoredPage where
  page : Page
  normImpressions : ℚ
  normPosition : ℚ
  normLinkScore : ℚ
  normDepth : ℚ
  priorityScore : ℚ
  hasPotential : Bool
deriving DecidableEq, Repr

/-- Lines 44 to 68 of analyzer.py for one row, given the full sanitized
dataset (the normalizations and medians are column-wide statistics). -/
def scorePage (pages : List Page) (p : Page) : ScoredPage :=
  let ni := normVal (pages.map (fun q => q.impressions)) p.impressions
  let np := normVal (pages.map (fun q => 1 / (q.position + 1))) (1 / (p.position + 1))
  let nl := normVal (pages.map (fun q => 1 / (q.linkScore + 1))) (1 / (p.linkScore + 1))
  let nd := normVal (pages.map (fun q => 1 / (q.crawlDepth + 1))) (1 / (p.crawlDepth + 1))
  { page := p
    normImpressions := ni
    normPosition := np
    normLinkScore := nl
    normDepth := nd
    priorityScore := ni * priorityWeightImpressions + np * priorityWeightPosition +
      nl * priorityWeightLinkScore + nd * priorityWeightDepth
    hasPotential :=
      decide (median (pages.map (fun q => q.impressions)) < p.impressions) &&
      decide (10 < p.position) &&
      decide (p.linkScore < median (pages.map (fun q => q.linkScore))) }

/-- calculate_priority_score, lines 26 to 70 of analyzer.py: sanitize every
row, score it against the column statistics, and sort by Priority Score
descending. pandas sort_values runs with its default quicksort kind; the
embedding fixes one deterministic descending sort. -/
def calculate_priority_score (data : List RawPage) : List ScoredPage :=
  let pages := data.map sanitizePage
  List.insertionSort (fun a b => b.priorityScore ≤ a.priorityScore)
    (pages.map (scorePage pages))

/-- One row of the inlinks table: an existing internal link edge. The anchor
column is never read by the engine and is omitted. -/
structure Edge where
  source : String
  destination : String
deriving DecidableEq, Repr

/-- get_existing_links, lines 94 to 103 of analyzer.py: the ordered pairs
(Source, Destination) of the edge table, the empty set when no edge table
was supplied. List membership models set membership. -/
def get_existing_links : Option (List Edge) → List (String × String)
  | none => []
  | some es => es.map (fun e => (e.source, e.destination))

/-- calculate_outlinks_count, lines 105 to 111 of analyzer.py, combined with
the dictionary lookup with default 0 at line 164: the number of edge rows
whose Source is the given address, and 0 when no edge table was supplied. -/
def calculate_outlinks_count (inlinks : Option (List Edge)) (u : String) : ℕ :=
  match inlinks with
  | none => 0
  | some es => (es.filter (fun e => e.source == u)).length

/-- The address-to-index dictionary built at line 77 of analyzer.py by a
Python comprehension over the enumerated address list: a duplicated address
keeps its last index. -/
def urlToIdx (addrs : List String) (u : String) : Option ℕ :=
  match addrs.reverse.findIdx? (fun a => a == u) with
  | none => none
  | some k => some (addrs.length - 1 - k)

/-- One row of the opportunity table built at lines 175 to 187. -/
structure Opp where
  source : String
  target : String
  sourceLinkScore : ℚ
  targetLinkScore : ℚ
  targetPriorityScore : ℚ
  similarity : ℚ
  sourceOutlinks : ℕ
  targetInlinks : ℚ
  targetImpressions : ℚ
  targetPosition : ℚ
  opportunityScore : ℚ
deriving DecidableEq, Repr

/-- Body of the inner source loop, lines 145 to 187 of analyzer.py: the
filters either reject the (source, target) pair or produce one opportunity
row. The argument sim is the memoized similarity matrix field, read by
index pairs exactly as line 157 does. The Python local variables of
lines 163 to 166 are inlined into the produced row. -/
def mkOpp (addrs : List String) (existing : List (String × String))
    (outCount : String → ℕ) (sim : ℕ → ℕ → ℚ)
    (target : ScoredPage) (targetIdx : ℕ) (src : ScoredPage) : Option Opp :=
  match urlToIdx addrs src.page.address with
  | none => none
  | some srcIdx =>
    if (src.page.address, target.page.address) ∈ existing then none
    else if sim srcIdx targetIdx < minSimilarityThreshold then none
    else some
      { source := src.page.address
        target := target.page.address
        sourceLinkScore := src.page.linkScore
        targetLinkScore := target.page.linkScore
        targetPriorityScore := target.priorityScore
        similarity := sim srcIdx targetIdx
        sourceOutlinks := outCount src.page.address
        targetInlinks := target.page.uniqueInlinks
        targetImpressions := target.page.impressions
        targetPosition := target.page.position
        opportunityScore :=
          src.page.linkScore / 100 * oppWeightSourceStrength +
          sim srcIdx targetIdx * oppWeightSimilarity +
          1 / (1 + (outCount src.page.address : ℚ) / maxOutlinksWarning) *
            oppWeightOutlinksPenalty +
          1 / (1 + target.page.uniqueInlinks) * oppWeightTargetNeed }

/-- Candidate sources for one target, lines 140 to 143 of analyzer.py: the
rows of the priority table whose Link Score strictly exceeds the median
Link Score of that table, excluding the target address itself. -/
def candidateSources (dfPriority : List ScoredPage) (targetUrl : String) : List ScoredPage :=
  dfPriority.filter (fun s =>
    decide (median (dfPriority.map (fun r => r.page.linkScore)) < s.page.linkScore) &&
    !(s.page.address == targetUrl))

/-- The opportunities list accumulated by the two nested loops of
lines 130 to 187 of analyzer.py, before sorting and capping. A target whose
address misses from the index dictionary is skipped, as line 136 does. -/
def opportunitiesList (addrs : List String) (dfPriority : List ScoredPage)
    (targets : List ScoredPage) (existing : List (String × String))
    (outCount : String → ℕ) (sim : ℕ → ℕ → ℚ) : List Opp :=
  targets.flatMap (fun t =>
    match urlToIdx addrs t.page.address with
    | none => []
    | some tIdx =>
      (candidateSources dfPriority t.page.address).filterMap
        (fun s => mkOpp addrs existing outCount sim t tIdx s))

/-- groupby Target followed by head k on an already sorted table, line 198
of analyzer.py: walk the rows in order and keep one when fewer than k rows
with the same Target were kept before it. -/
def capPerTarget (k : ℕ) (cnt : String → ℕ) : List Opp → List Opp
  | [] => []
  | o :: rest =>
    if cnt o.target < k then
      o :: capPerTarget k (fun u => if u = o.target then cnt u + 1 else cnt u) rest
    else capPerTarget k cnt rest

/-- The qualifying opportunity rows sorted by Opportunity Score descending,
line 195 of analyzer.py (same remark on the pandas sort kind as for the
priority table sort). -/
def sortedOpportunities (data : List RawPage) (inlinks : Option (List Edge))
    (sim : ℕ → ℕ → ℚ) (topN : ℕ) : List Opp :=
  let dfPriority := calculate_priority_score data
  let targets := dfPriority.take topN
  List.insertionSort (fun a b => b.opportunityScore ≤ a.opportunityScore)
    (opportunitiesList (data.map (fun p => p.address)) dfPriority targets
      (get_existing_links inlinks) (calculate_outlinks_count inlinks) sim)

/-- generate_link_opportunities, lines 113 to 200 of analyzer.py. The
argument sim stands for the memoized similarity matrix field (by default
the cosine matrix over the page addresses that compute_similarity_matrix
fills together with the index dictionaries). The early return on an empty
row list at line 192 coincides with sorting and capping the empty list. -/
def generate_link_opportunities (data : List RawPage) (inlinks : Option (List Edge))
    (sim : ℕ → ℕ → ℚ) (topN : ℕ) : List Opp :=
  capPerTarget topKSuggestionsPerPage (fun _ => 0)
    (sortedOpportunities data inlinks sim topN)

/-- A character of the word class of the token pattern configured at
line 85 of analyzer.py (ASCII letters, digits and the underscore; the
corpora considered here are ASCII). -/
def isWordChar (c : Char) : Bool := c.isAlphanum || c == '_'

/-- Splits a lowercased character stream into the maximal runs of word
characters, which is what findall of the configured token pattern returns.
The second argument carries the current run, reversed. -/
def tokenizeAux : List Char → List Char → List String
  | [], cur => if cur.isEmpty then [] else [String.mk cur.reverse]
  | c :: cs, cur =>
    if isWordChar c then tokenizeAux cs (c :: cur)
    else if cur.isEmpty then tokenizeAux cs [] else String.mk cur.reverse :: tokenizeAux cs []

/-- The word analyzer of the vectorizer: lowercase (its default), then the
configured token pattern. Lowercasing is applied per character. -/
def tokenize (s : String) : List String :=
  tokenizeAux (s.toList.map Char.toLower) []

/-- The fixed english stop word list of the vectorizer library, selected by
the stop_words option at line 86 of analyzer.py. -/
def stopWords : List String :=
  ["a", "about", "above", "across", "after", "afterwards", "again", "against",
   "all", "almost", "alone", "along", "already", "also", "although", "always",
   "am", "among", "amongst", "amoungst", "amount", "an", "and", "another",
   "any", "anyhow", "anyone", "anything", "anyway", "anywhere", "are",
   "around", "as", "at", "back", "be", "became", "because", "become",
   "becomes", "becoming", "been", "before", "beforehand", "behind", "being",
   "below", "beside", "besides", "between", "beyond", "bill", "both",
   "bottom", "but", "by", "call", "can", "cannot", "cant", "co", "con",
   "could", "couldnt", "cry", "de", "describe", "detail", "do", "done",
   "down", "due", "during", "each", "eg", "eight", "either", "eleven",
   "else", "elsewhere", "empty", "enough", "etc", "even", "ever", "every",
   "everyone", "everything", "everywhere", "except", "few", "fifteen",
   "fifty", "fill", "find", "fire", "first", "five", "for", "former",
   "formerly", "forty", "found", "four", "from", "front", "full", "further",
   "get", "give", "go", "had", "has", "hasnt", "have", "he", "hence", "her",
   "here", "hereafter", "hereby", "herein", "hereupon", "hers", "herself",
   "him", "himself", "his", "how", "however", "hundred", "i", "ie", "if",
   "in", "inc", "indeed", "interest", "into", "is", "it", "its", "itself",
   "keep", "last", "latter", "latterly", "least", "less", "ltd", "made",
   "many", "may", "me", "meanwhile", "might", "mill", "mine", "more",
   "moreover", "most", "mostly", "move", "much", "must", "my", "myself",
   "name", "namely", "neither", "never", "nevertheless", "next", "nine",
   "no", "nobody", "none", "noone", "nor", "not", "nothing", "now",
   "nowhere", "of", "off", "often", "on", "once", "one", "only", "onto",
   "or", "other", "others", "otherwise", "our", "ours", "ourselves", "out",
   "over", "own", "part", "per", "perhaps", "please", "put", "rather", "re",
   "same", "see", "seem", "seemed", "seeming", "seems", "serious", "several",
   "she", "should", "show", "side", "since", "sincere", "six", "sixty",
   "so", "some", "somehow", "someone", "something", "sometime", "sometimes",
   "somewhere", "still", "such", "system", "take", "ten", "than", "that",
   "the", "their", "them", "themselves", "then", "thence", "there",
   "thereafter", "thereby", "therefore", "therein", "thereupon", "these",
   "they", "thick", "thin", "third", "this", "those", "though", "three",
   "through", "throughout", "thru", "thus", "to", "together", "too", "top",
   "toward", "towards", "twelve", "twenty", "two", "un", "under", "until",
   "up", "upon", "us", "very", "via", "was", "we", "well", "were", "what",
   "whatever", "when", "whence", "whenever", "where", "whereafter",
   "whereas", "whereby", "wherein", "whereupon", "wherever", "whether",
   "which", "while", "whither", "who", "whoever", "whole", "whom", "whose",
   "why", "will", "with", "within", "without", "would", "yet", "you",
   "your", "yours", "yourself", "yourselves"]

/-- Stop word removal, applied by the vectorizer to the token stream before
n-gram generation. -/
def removeStopWords (ts : List String) : List String :=
  ts.filter (fun t => !(stopWords.contains t))

/-- Adjacent bigrams joined by a space; the configured ngram range 1 to 2
makes the features of a document its unigrams followed by these. -/
def bigrams : List String → List String
  | a :: b :: rest => (a ++ " " ++ b) :: bigrams (b :: rest)
  | _ => []

/-- The feature multiset of one document under the configuration of
lines 82 to 87 of analyzer.py. -/
def features (doc : String) : List String :=
  let ts := removeStopWords (tokenize doc)
  ts ++ bigrams ts

/-- Code point lexicographic comparison of character lists. -/
def charListLe : List Char → List Char → Bool
  | [], _ => true
  | _ :: _, [] => false
  | a :: as, b :: bs =>
    if a.toNat < b.toNat then true
    else if b.toNat < a.toNat then false
    else charListLe as bs

/-- Code point lexicographic comparison of strings, the order in which the
vectorizer lays out its vocabulary. -/
def strLe (a b : String) : Bool := charListLe a.toList b.toList

/-- Total term count of a feature across the corpus; used by the vectorizer
only to pick the top features when the vocabulary exceeds the cap. -/
def totalTf (corpus : List String) (t : String) : ℕ :=
  (corpus.map (fun d => (features d).count t)).sum

/-- The vocabulary before the max features cap: every distinct feature of
the corpus, in code point order. An empty result makes the vectorizer raise
its empty vocabulary error. -/
def vocabAll (corpus : List String) : List String :=
  List.insertionSort (fun a b => strLe a b = true) ((corpus.flatMap features).dedup)

/-- The vocabulary after the max features cap of 1000 configured at line 83
of analyzer.py: over the cap, the features with the highest corpus term
frequency are kept (the library breaks frequency ties in an internal order;
no corpus considered by a theorem below reaches the cap). -/
def vocab (corpus : List String) : List String :=
  let v := vocabAll corpus
  if v.length ≤ 1000 then v
  else List.insertionSort (fun a b => strLe a b = true)
    ((List.insertionSort (fun a b => totalTf corpus b ≤ totalTf corpus a) v).take 1000)

/-- Term count of one feature in one document. -/
def tf (doc : String) (t : String) : ℕ := (features doc).count t

/-- Document frequency of a feature in the corpus. -/
def df (corpus : List String) (t : String) : ℕ :=
  (corpus.filter (fun d => (features d).contains t)).length

/-- Smoothed inverse document frequency, the vectorizer default. -/
noncomputable def idf (corpus : List String) (t : String) : ℝ :=
  Real.log ((1 + (corpus.length : ℝ)) / (1 + (df corpus t : ℝ))) + 1

/-- Raw tf idf weight of one feature in one document. -/
noncomputable def tfidfWeight (corpus : List String) (d t : String) : ℝ :=
  (tf d t : ℝ) * idf corpus t

/-- Euclidean norm of the raw tf idf row of one document. -/
noncomputable def rowNorm (corpus : List String) (d : String) : ℝ :=
  Real.sqrt (∑ t ∈ (vocab corpus).toFinset, tfidfWeight corpus d t ^ 2)

/-- The l2 normalized tf idf row, the vectorizer default norm. A zero row
stays zero: the library normalizer sets zero norms to one before dividing. -/
noncomputable def tfidfRow (corpus : List String) (d t : String) : ℝ :=
  tfidfWeight corpus d t / (if rowNorm corpus d = 0 then 1 else rowNorm corpus d)

/-- Scalar product of the normalized rows of two documents. -/
noncomputable def dotT (corpus : List String) (d1 d2 : String) : ℝ :=
  ∑ t ∈ (vocab corpus).toFinset, tfidfRow corpus d1 t * tfidfRow corpus d2 t

/-- Cosine similarity of two documents: the scalar product of the rows over
the product of their norms. Division by zero is zero, which coincides with
the zero row handling of the library cosine helper. -/
noncomputable def cosSim (corpus : List String) (d1 d2 : String) : ℝ :=
  dotT corpus d1 d2 / (Real.sqrt (dotT corpus d1 d1) * Real.sqrt (dotT corpus d2 d2))

/-- The similarity matrix as a function of row and column indices into the
address corpus. -/
noncomputable def simFun (corpus : List String) (i j : ℕ) : ℝ :=
  cosSim corpus (corpus.getD i "") (corpus.getD j "")

/-- compute_similarity_matrix, lines 72 to 92 of analyzer.py, on the corpus
of page addresses (NaN addresses arrive as empty strings through the fillna
of line 74). The vectorizer raises on an empty vocabulary, modelled by the
none result; otherwise the full pairwise cosine matrix is returned. -/
noncomputable def compute_similarity_matrix (corpus : List String) : Option (ℕ → ℕ → ℝ) :=
  if vocabAll corpus = [] then none else some (simFun corpus)

/-! Concrete fixtures used by the witness instances below. -/

/-- Fixture page with high impressions, weak link score, deep crawl. -/
def wpA : RawPage :=
  { address := "a", impressions := .num 1000, position := .num 20,
    linkScore := .num 10, crawlDepth := .num 3, uniqueInlinks := 0 }

/-- Fixture page with middling metrics. -/
def wpB : RawPage :=
  { address := "b", impressions := .num 500, position := .num 5,
    linkScore := .num 50, crawlDepth := .num 1, uniqueInlinks := 2 }

/-- Fixture page with a strong link score, a candidate source. -/
def wpC : RawPage :=
  { address := "c", impressions := .num 0, position := .num 1,
    linkScore := .num 90, crawlDepth := .num 0, uniqueInlinks := 5 }

/-- Fixture page whose Crawl Depth cell is missing. -/
def rawNanDepth : RawPage :=
  { address := "nan-depth", impressions := .num 5, position := .num 10,
    linkScore := .num 50, crawlDepth := .nan, uniqueInlinks := 0 }

/-- A constant similarity matrix used by witnesses. -/
def simOne : ℕ → ℕ → ℚ := fun _ _ => 1

/-- A dummy opportunity row used as a lookup default by witnesses. -/
def dummyOpp : Opp :=
  { source := "", target := "", sourceLinkScore := 0, targetLinkScore := 0,
    targetPriorityScore := 0, similarity := 0, sourceOutlinks := 0,
    targetInlinks := 0, targetImpressions := 0, targetPosition := 0,
    opportunityScore := 0 }

/-- The generator run probed by the first witness: one existing edge. -/
def c1Run : List Opp :=
  generate_link_opportunities [wpA, wpB, wpC] (some [Edge.mk "c" "b"]) simOne 50

/-- First row of that run. -/
def c1Row : Opp := c1Run.getD 0 dummyOpp

/-- The generator run with no edge table probed by another witness. -/
def c9Run : List Opp := generate_link_opportunities [wpA, wpB, wpC] none simOne 50

/-- First row of that run. -/
def c9Row : Opp := c9Run.getD 0 dummyOpp

/-- Sanitized fixture dataset for the score formula witness. -/
def c3Pages : List Page := [wpA, wpB].map sanitizePage

/-- One scored fixture row for the score formula witness. -/
def c3Row : ScoredPage := scorePage c3Pages (sanitizePage wpA)

/-! Helper lemmas about the column statistics. -/

lemma mem_foldl_max (xs : List ℚ) (a : ℚ) : xs.foldl max a ∈ a :: xs := by
  induction xs generalizing a with
  | nil => simp
  | cons x xs ih =>
    have h := ih (max a x)
    rcases List.mem_cons.mp h with h1 | h2
    · rcases max_choice a x with hc | hc
      · rw [List.foldl_cons, h1, hc]; exact List.mem_cons_self _ _
      · rw [List.foldl_cons, h1, hc]; exact List.mem_cons_of_mem _ (List.mem_cons_self _ _)
    · exact List.mem_cons_of_mem _ (List.mem_cons_of_mem _ h2)

lemma le_foldl_max (xs : List ℚ) (a : ℚ) :
    a ≤ xs.foldl max a ∧ ∀ y ∈ xs, y ≤ xs.foldl max a := by
  induction xs generalizing a with
  | nil => exact ⟨le_refl a, by simp⟩
  | cons x xs ih =>
    obtain ⟨h1, h2⟩ := ih (max a x)
    constructor
    · rw [List.foldl_cons]
      exact le_trans (le_max_left a x) h1
    · intro y hy
      rw [List.foldl_cons]
      rcases List.mem_cons.mp hy with hy | hy
      · rw [hy]
        exact le_trans (le_max_right a x) h1
      · exact h2 y hy

lemma mem_foldl_min (xs : List ℚ) (a : ℚ) : xs.foldl min a ∈ a :: xs := by
  induction xs generalizing a with
  | nil => simp
  | cons x xs ih =>
    have h := ih (min a x)
    rcases List.mem_cons.mp h with h1 | h2
    · rcases min_choice a x with hc | hc
      · rw [List.foldl_cons, h1, hc]; exact List.mem_cons_self _ _
      · rw [List.foldl_cons, h1, hc]; exact List.mem_cons_of_mem _ (List.mem_cons_self _ _)
    · exact List.mem_cons_of_mem _ (List.mem_cons_of_mem _ h2)

lemma foldl_min_le (xs : List ℚ) (a : ℚ) :
    xs.foldl min a ≤ a ∧ ∀ y ∈ xs, xs.foldl min a ≤ y := by
  induction xs generalizing a with
  | nil => exact ⟨le_refl a, by simp⟩
  | cons x xs ih =>
    obtain ⟨h1, h2⟩ := ih (min a x)
    constructor
    · rw [List.foldl_cons]
      exact le_trans h1 (min_le_left a x)
    · intro y hy
      rw [List.foldl_cons]
      rcases List.mem_cons.mp hy with hy | hy
      · rw [hy]
        exact le_trans h1 (min_le_right a x)
      · exact h2 y hy

lemma colMax_mem {xs : List ℚ} (h : xs ≠ []) : colMax xs ∈ xs := by
  cases xs with
  | nil => exact absurd rfl h
  | cons x xs => exact mem_foldl_max xs x

lemma le_colMax {xs : List ℚ} : ∀ y ∈ xs, y ≤ colMax xs := by
  cases xs with
  | nil => simp
  | cons x xs =>
    intro y hy
    rcases List.mem_cons.mp hy with hy | hy
    · exact hy ▸ (le_foldl_max xs x).1
    · exact (le_foldl_max xs x).2 y hy

lemma colMin_mem {xs : List ℚ} (h : xs ≠ []) : colMin xs ∈ xs := by
  cases xs with
  | nil => exact absurd rfl h
  | cons x xs => exact mem_foldl_min xs x

lemma colMin_le {xs : List ℚ} : ∀ y ∈ xs, colMin xs ≤ y := by
  cases xs with
  | nil => simp
  | cons x xs =>
    intro y hy
    rcases List.mem_cons.mp hy with hy | hy
    · exact hy ▸ (foldl_min_le xs x).1
    · exact (foldl_min_le xs x).2 y hy

lemma colMax_perm {xs ys : List ℚ} (h : xs.Perm ys) : colMax xs = colMax ys := by
  cases hx : xs with
  | nil =>
    have : ys = [] := (hx ▸ h).symm.eq_nil
    rw [this]
  | cons x l =>
    have hxne : xs ≠ [] := by rw [hx]; exact List.cons_ne_nil _ _
    have hyne : ys ≠ [] := by
      intro hy
      rw [hy] at h
      exact hxne h.eq_nil
    rw [← hx]
    exact le_antisymm
      (le_colMax _ (h.subset (colMax_mem hxne)))
      (le_colMax _ (h.symm.subset (colMax_mem hyne)))

lemma colMin_perm {xs ys : List ℚ} (h : xs.Perm ys) : colMin xs = colMin ys := by
  cases hx : xs with
  | nil =>
    have : ys = [] := (hx ▸ h).symm.eq_nil
    rw [this]
  | cons x l =>
    have hxne : xs ≠ [] := by rw [hx]; exact List.cons_ne_nil _ _
    have hyne : ys ≠ [] := by
      intro hy
      rw [hy] at h
      exact hxne h.eq_nil
    rw [← hx]
    exact le_antisymm
      (colMin_le _ (h.symm.subset (colMin_mem hyne)))
      (colMin_le _ (h.subset (colMin_mem hxne)))

lemma median_perm {xs ys : List ℚ} (h : xs.Perm ys) : median xs = median ys := by
  have hs : List.insertionSort (· ≤ ·) xs = List.insertionSort (· ≤ ·) ys :=
    List.eq_of_perm_of_sorted
      ((List.perm_insertionSort _ xs).trans (h.trans (List.perm_insertionSort _ ys).symm))
      (List.sorted_insertionSort _ xs) (List.sorted_insertionSort _ ys)
  unfold median
  rw [hs, h.length_eq]

lemma normalizeSeries_eq_map (xs : List ℚ) : normalizeSeries xs = xs.map (normVal xs) := by
  unfold normalizeSeries normVal
  by_cases h : colMax xs = colMin xs
  · rw [if_pos h]
    have hfg : (fun x : ℚ => x * 0) =
        (fun x : ℚ => if colMax xs = colMin xs then x * 0
          else (x - colMin xs) / (colMax xs - colMin xs)) :=
      funext fun x => (if_pos h).symm
    rw [hfg]
  · rw [if_neg h]
    have hfg : (fun x : ℚ => (x - colMin xs) / (colMax xs - colMin xs)) =
        (fun x : ℚ => if colMax xs = colMin xs then x * 0
          else (x - colMin xs) / (colMax xs - colMin xs)) :=
      funext fun x => (if_neg h).symm
    rw [hfg]

lemma normVal_perm {xs ys : List ℚ} (h : xs.Perm ys) : normVal xs = normVal ys := by
  funext x
  unfold normVal
  rw [colMax_perm h, colMin_perm h]

lemma scorePage_perm {pages₁ pages₂ : List Page} (h : pages₁.Perm pages₂) :
    scorePage pages₁ = scorePage pages₂ := by
  funext p
  unfold scorePage
  rw [normVal_perm (h.map (fun q => q.impressions)),
    normVal_perm (h.map (fun q => 1 / (q.position + 1))),
    normVal_perm (h.map (fun q => 1 / (q.linkScore + 1))),
    normVal_perm (h.map (fun q => 1 / (q.crawlDepth + 1))),
    median_perm (h.map (fun q => q.impressions)),
    median_perm (h.map (fun q => q.linkScore))]

/-! Helper lemmas about the opportunity generator. -/

lemma mem_capPerTarget {k : ℕ} {cnt : String → ℕ} {l : List Opp} {p : Opp}
    (h : p ∈ capPerTarget k cnt l) : p ∈ l := by
  induction l generalizing cnt with
  | nil => simp [capPerTarget] at h
  | cons o rest ih =>
    unfold capPerTarget at h
    by_cases hc : cnt o.target < k
    · rw [if_pos hc] at h
      rcases List.mem_cons.mp h with h1 | h2
      · rw [h1]; exact List.mem_cons_self _ _
      · exact List.mem_cons_of_mem _ (ih h2)
    · rw [if_neg hc] at h
      exact List.mem_cons_of_mem _ (ih h)

lemma countP_capPerTarget (k : ℕ) (t : String) :
    ∀ (l : List Opp) (cnt : String → ℕ),
      (capPerTarget k cnt l).countP (fun o => o.target == t) =
        min (l.countP (fun o => o.target == t)) (k - cnt t) := by
  intro l
  induction l with
  | nil => intro cnt; simp [capPerTarget]
  | cons o rest ih =>
    intro cnt
    unfold capPerTarget
    by_cases hot : o.target = t
    · by_cases hc : cnt o.target < k
      · rw [if_pos hc, List.countP_cons, List.countP_cons, ih]
        have hbump : (if t = o.target then cnt t + 1 else cnt t) = cnt t + 1 :=
          if_pos hot.symm
        rw [hbump, hot] at *
        simp only [beq_self_eq_true, if_true]
        omega
      · rw [if_neg hc, ih, List.countP_cons]
        rw [hot] at hc ⊢
        simp only [beq_self_eq_true, if_true]
        omega
    · have hto : ¬ t = o.target := fun h => hot h.symm
      have hbeq : (o.target == t) = false := by
        simp [hot]
      by_cases hc : cnt o.target < k
      · rw [if_pos hc, List.countP_cons, List.countP_cons, ih]
        have hbump : (if t = o.target then cnt t + 1 else cnt t) = cnt t := if_neg hto
        rw [hbump]
        simp [hbeq]
      · rw [if_neg hc, ih, List.countP_cons]
        simp [hbeq]

lemma mkOpp_eq_some {addrs : List String} {existing : List (String × String)}
    {outCount : String → ℕ} {sim : ℕ → ℕ → ℚ} {t : ScoredPage} {tIdx : ℕ}
    {s : ScoredPage} {p : Opp}
    (h : mkOpp addrs existing outCount sim t tIdx s = some p) :
    p.source = s.page.address ∧ p.target = t.page.address ∧
    p.sourceLinkScore = s.page.linkScore ∧
    p.sourceOutlinks = outCount s.page.address ∧
    (p.source, p.target) ∉ existing ∧
    minSimilarityThreshold ≤ p.similarity := by
  unfold mkOpp at h
  cases hidx : urlToIdx addrs s.page.address with
  | none => rw [hidx] at h; exact absurd h (by simp)
  | some srcIdx =>
    rw [hidx] at h
    dsimp only at h
    by_cases hex : (s.page.address, t.page.address) ∈ existing
    · rw [if_pos hex] at h; exact absurd h (by simp)
    · rw [if_neg hex] at h
      by_cases hsim : sim srcIdx tIdx < minSimilarityThreshold
      · rw [if_pos hsim] at h; exact absurd h (by simp)
      · rw [if_neg hsim] at h
        have hp := Option.some.inj h
        subst hp
        exact ⟨rfl, rfl, rfl, rfl, hex, not_lt.mp hsim⟩

lemma mkOpp_existing_iff {addrs : List String} {existing : List (String × String)}
    {outCount : String → ℕ} {sim : ℕ → ℕ → ℚ} {t : ScoredPage} {tIdx : ℕ}
    {s : ScoredPage} {p : Opp} :
    mkOpp addrs existing outCount sim t tIdx s = some p ↔
      (mkOpp addrs [] outCount sim t tIdx s = some p ∧ (p.source, p.target) ∉ existing) := by
  unfold mkOpp
  cases hidx : urlToIdx addrs s.page.address with
  | none => simp
  | some srcIdx =>
    dsimp only
    rw [if_neg (List.not_mem_nil (s.page.address, t.page.address))]
    by_cases hsim : sim srcIdx tIdx < minSimilarityThreshold
    · rw [if_pos hsim]
      simp
    · rw [if_neg hsim]
      by_cases hex : (s.page.address, t.page.address) ∈ existing
      · rw [if_pos hex]
        constructor
        · intro h; exact absurd h (by simp)
        · rintro ⟨hrec, hnot⟩
          have hp := Option.some.inj hrec
          subst hp
          exact absurd hex hnot
      · rw [if_neg hex]
        constructor
        · intro h
          refine ⟨h, ?_⟩
          have hp := Option.some.inj h
          subst hp
          exact hex
        · rintro ⟨h, _⟩; exact h

lemma mem_candidateSources {dfPriority : List ScoredPage} {targetUrl : String}
    {s : ScoredPage} (h : s ∈ candidateSources dfPriority targetUrl) :
    s ∈ dfPriority ∧
    median (dfPriority.map (fun r => r.page.linkScore)) < s.page.linkScore ∧
    s.page.address ≠ targetUrl := by
  unfold candidateSources at h
  rw [List.mem_filter] at h
  obtain ⟨hmem, hcond⟩ := h
  simp only [Bool.and_eq_true, decide_eq_true_eq, Bool.not_eq_true', beq_eq_false_iff_ne,
    ne_eq] at hcond
  exact ⟨hmem, hcond.1, hcond.2⟩

lemma mem_candidateSources_of {dfPriority : List ScoredPage} {targetUrl : String}
    {s : ScoredPage} (hmem : s ∈ dfPriority)
    (hmed : median (dfPriority.map (fun r => r.page.linkScore)) < s.page.linkScore)
    (haddr : s.page.address ≠ targetUrl) : s ∈ candidateSources dfPriority targetUrl := by
  unfold candidateSources
  rw [List.mem_filter]
  refine ⟨hmem, ?_⟩
  simp [hmed, haddr]

lemma mem_opportunitiesList {addrs : List String} {dfPriority targets : List ScoredPage}
    {existing : List (String × String)} {outCount : String → ℕ} {sim : ℕ → ℕ → ℚ} {p : Opp} :
    p ∈ opportunitiesList addrs dfPriority targets existing outCount sim ↔
      ∃ t ∈ targets, ∃ tIdx, urlToIdx addrs t.page.address = some tIdx ∧
        ∃ s ∈ candidateSources dfPriority t.page.address,
          mkOpp addrs existing outCount sim t tIdx s = some p := by
  unfold opportunitiesList
  rw [List.mem_flatMap]
  constructor
  · rintro ⟨t, ht, hp⟩
    cases hidx : urlToIdx addrs t.page.address with
    | none => rw [hidx] at hp; exact absurd hp (by simp)
    | some tIdx =>
      rw [hidx] at hp
      rw [List.mem_filterMap] at hp
      obtain ⟨s, hs, hmk⟩ := hp
      exact ⟨t, ht, tIdx, hidx, s, hs, hmk⟩
  · rintro ⟨t, ht, tIdx, hidx, s, hs, hmk⟩
    refine ⟨t, ht, ?_⟩
    rw [hidx]
    exact List.mem_filterMap.mpr ⟨s, hs, hmk⟩

lemma mem_generate {data : List RawPage} {inlinks : Option (List Edge)}
    {sim : ℕ → ℕ → ℚ} {topN : ℕ} {p : Opp}
    (h : p ∈ generate_link_opportunities data inlinks sim topN) :
    ∃ t ∈ (calculate_priority_score data).take topN,
      ∃ tIdx, urlToIdx (data.map (fun q => q.address)) t.page.address = some tIdx ∧
      ∃ s ∈ candidateSources (calculate_priority_score data) t.page.address,
        mkOpp (data.map (fun q => q.address)) (get_existing_links inlinks)
          (calculate_outlinks_count inlinks) sim t tIdx s = some p := by
  unfold generate_link_opportunities at h
  have h1 := mem_capPerTarget h
  unfold sortedOpportunities at h1
  have h2 := (List.perm_insertionSort
    (fun a b : Opp => b.opportunityScore ≤ a.opportunityScore) _).mem_iff.mp h1
  exact mem_opportunitiesList.mp h2

lemma linkScores_perm (data : List RawPage) :
    ((calculate_priority_score data).map (fun sp => sp.page.linkScore)).Perm
      ((data.map sanitizePage).map (fun q => q.linkScore)) := by
  unfold calculate_priority_score
  refine (List.Perm.map _ (List.perm_insertionSort _ _)).trans ?_
  rw [List.map_map]
  exact List.Perm.refl _

/-! Helper lemmas about the similarity engine. -/

lemma df_le_length (corpus : List String) (t : String) : df corpus t ≤ corpus.length :=
  List.length_filter_le _ _

lemma one_le_idf (corpus : List String) (t : String) : 1 ≤ idf corpus t := by
  unfold idf
  have h1 : (0 : ℝ) < 1 + (df corpus t : ℝ) := by positivity
  have h2 : (1 : ℝ) ≤ (1 + (corpus.length : ℝ)) / (1 + (df corpus t : ℝ)) := by
    rw [le_div_iff₀ h1]
    have hle : (df corpus t : ℝ) ≤ (corpus.length : ℝ) :=
      Nat.cast_le.mpr (df_le_length corpus t)
    linarith
  have h3 := Real.log_nonneg h2
  linarith

lemma idf_nonneg (corpus : List String) (t : String) : 0 ≤ idf corpus t :=
  le_trans zero_le_one (one_le_idf corpus t)

lemma tfidfWeight_nonneg (corpus : List String) (d t : String) :
    0 ≤ tfidfWeight corpus d t :=
  mul_nonneg (Nat.cast_nonneg _) (idf_nonneg corpus t)

lemma tfidfRow_nonneg (corpus : List String) (d t : String) : 0 ≤ tfidfRow corpus d t := by
  unfold tfidfRow
  apply div_nonneg (tfidfWeight_nonneg corpus d t)
  split
  · exact zero_le_one
  · exact Real.sqrt_nonneg _

lemma dotT_comm (corpus : List String) (d1 d2 : String) :
    dotT corpus d1 d2 = dotT corpus d2 d1 := by
  unfold dotT
  exact Finset.sum_congr rfl fun t _ => mul_comm _ _

lemma dotT_nonneg (corpus : List String) (d1 d2 : String) : 0 ≤ dotT corpus d1 d2 :=
  Finset.sum_nonneg fun t _ =>
    mul_nonneg (tfidfRow_nonneg corpus d1 t) (tfidfRow_nonneg corpus d2 t)

lemma dotT_self_eq_one {corpus : List String} {d : String} (h : rowNorm corpus d ≠ 0) :
    dotT corpus d d = 1 := by
  have hS : 0 ≤ ∑ t ∈ (vocab corpus).toFinset, tfidfWeight corpus d t ^ 2 :=
    Finset.sum_nonneg fun t _ => sq_nonneg _
  have hRsq : rowNorm corpus d ^ 2 =
      ∑ t ∈ (vocab corpus).toFinset, tfidfWeight corpus d t ^ 2 :=
    Real.sq_sqrt hS
  have hSne : (∑ t ∈ (vocab corpus).toFinset, tfidfWeight corpus d t ^ 2) ≠ 0 := by
    intro h0
    apply h
    unfold rowNorm
    rw [h0, Real.sqrt_zero]
  unfold dotT tfidfRow
  simp only [if_neg h]
  have hterm : ∀ t ∈ (vocab corpus).toFinset,
      tfidfWeight corpus d t / rowNorm corpus d * (tfidfWeight corpus d t / rowNorm corpus d) =
        tfidfWeight corpus d t ^ 2 / rowNorm corpus d ^ 2 := fun t _ => by ring
  rw [Finset.sum_congr rfl hterm, ← Finset.sum_div, hRsq, div_self hSne]

lemma cosSim_self_eq_one {corpus : List String} {d : String} (h : rowNorm corpus d ≠ 0) :
    cosSim corpus d d = 1 := by
  unfold cosSim
  rw [dotT_self_eq_one h, Real.sqrt_one]
  norm_num

lemma cosSim_comm (corpus : List String) (d1 d2 : String) :
    cosSim corpus d1 d2 = cosSim corpus d2 d1 := by
  unfold cosSim
  rw [dotT_comm corpus d1 d2, mul_comm]

lemma cosSim_nonneg (corpus : List String) (d1 d2 : String) : 0 ≤ cosSim corpus d1 d2 :=
  div_nonneg (dotT_nonneg corpus d1 d2)
    (mul_nonneg (Real.sqrt_nonneg _) (Real.sqrt_nonneg _))

lemma cosSim_le_one (corpus : List String) (d1 d2 : String) : cosSim corpus d1 d2 ≤ 1 := by
  unfold cosSim
  rcases (mul_nonneg (Real.sqrt_nonneg (dotT corpus d1 d1))
      (Real.sqrt_nonneg (dotT corpus d2 d2))).eq_or_lt with hzero | hpos
  · rw [← hzero, div_zero]
    exact zero_le_one
  · rw [div_le_one hpos]
    have h11 : dotT corpus d1 d1 =
        ∑ t ∈ (vocab corpus).toFinset, tfidfRow corpus d1 t ^ 2 := by
      unfold dotT
      exact Finset.sum_congr rfl fun t _ => (pow_two _).symm
    have h22 : dotT corpus d2 d2 =
        ∑ t ∈ (vocab corpus).toFinset, tfidfRow corpus d2 t ^ 2 := by
      unfold dotT
      exact Finset.sum_congr rfl fun t _ => (pow_two _).symm
    calc dotT corpus d1 d2 ≤
        Real.sqrt (∑ t ∈ (vocab corpus).toFinset, tfidfRow corpus d1 t ^ 2) *
          Real.sqrt (∑ t ∈ (vocab corpus).toFinset, tfidfRow corpus d2 t ^ 2) :=
          Real.sum_mul_le_sqrt_mul_sqrt ((vocab corpus).toFinset)
            (fun t => tfidfRow corpus d1 t) (fun t => tfidfRow corpus d2 t)
      _ = Real.sqrt (dotT corpus d1 d1) * Real.sqrt (dotT corpus d2 d2) := by
          rw [h11, h22]

lemma compute_similarity_matrix_eq_some {corpus : List String} {M : ℕ → ℕ → ℝ}
    (h : compute_similarity_matrix corpus = some M) : M = simFun corpus := by
  unfold compute_similarity_matrix at h
  by_cases hv : vocabAll corpus = []
  · rw [if_pos hv] at h
    exact absurd h (by simp)
  · rw [if_neg hv] at h
    exact (Option.some.inj h).symm

/-! Claim theorems. -/

/-- C1: every row emitted by a run of the opportunity generator passes all
filters: its ordered (source, target) pair is not in the existing edge set,
source and target addresses differ, its similarity is at least the minimum
threshold of one tenth, and its source Link Score strictly exceeds the
dataset wide median Link Score. -/
theorem c1_emitted_pairs_pass_filters (data : List RawPage) (inlinks : Option (List Edge))
    (sim : ℕ → ℕ → ℚ) (topN : ℕ) (p : Opp)
    (h : p ∈ generate_link_opportunities data inlinks sim topN) :
    (p.source, p.target) ∉ get_existing_links inlinks ∧
    p.source ≠ p.target ∧
    minSimilarityThreshold ≤ p.similarity ∧
    median ((data.map sanitizePage).map (fun q => q.linkScore)) < p.sourceLinkScore := by
  obtain ⟨t, ht, tIdx, hidx, s, hs, hmk⟩ := mem_generate h
  obtain ⟨hsrc, htgt, hls, hout, hnotex, hsim⟩ := mkOpp_eq_some hmk
  obtain ⟨hmem, hmed, haddr⟩ := mem_candidateSources hs
  refine ⟨hnotex, ?_, hsim, ?_⟩
  · rw [hsrc, htgt]
    exact haddr
  · rw [hls]
    rwa [median_perm (linkScores_perm data)] at hmed

/-- C1 witness: a concrete run whose first emitted row passes the filters. -/
theorem c1_witness :
    (c1Row.source, c1Row.target) ∉ get_existing_links (some [Edge.mk "c" "b"]) ∧
    c1Row.source ≠ c1Row.target ∧
    minSimilarityThreshold ≤ c1Row.similarity ∧
    median (([wpA, wpB, wpC].map sanitizePage).map (fun q => q.linkScore)) <
      c1Row.sourceLinkScore :=
  c1_emitted_pairs_pass_filters [wpA, wpB, wpC] (some [Edge.mk "c" "b"]) simOne 50 c1Row
    (by decide)

/-- C2: for every run and every target address, the returned table holds
exactly the minimum of the per target cap (ten) and the number of
qualifying sorted rows of that target, hence never more than ten rows per
target; the cap binds per destination on the sorted rows, not as a global
row limit. -/
theorem c2_per_target_cap (data : List RawPage) (inlinks : Option (List Edge))
    (sim : ℕ → ℕ → ℚ) (topN : ℕ) (t : String) :
    (generate_link_opportunities data inlinks sim topN).countP (fun o => o.target == t) =
      min ((sortedOpportunities data inlinks sim topN).countP (fun o => o.target == t))
        topKSuggestionsPerPage ∧
    (generate_link_opportunities data inlinks sim topN).countP (fun o => o.target == t) ≤ 10 := by
  have h := countP_capPerTarget topKSuggestionsPerPage t
    (sortedOpportunities data inlinks sim topN) (fun _ => 0)
  constructor
  · unfold generate_link_opportunities
    rw [h, Nat.sub_zero]
  · unfold generate_link_opportunities
    rw [h]
    simp only [topKSuggestionsPerPage]
    omega

/-- C9: with no edge table supplied the generator degrades gracefully: it
returns exactly what it returns on an empty edge table, the existing link
check runs against the empty edge set, and every emitted row reports zero
source outlinks. -/
theorem c9_missing_edge_table (data : List RawPage) (sim : ℕ → ℕ → ℚ) (topN : ℕ) :
    generate_link_opportunities data none sim topN =
      generate_link_opportunities data (some []) sim topN ∧
    get_existing_links none = [] ∧
    ∀ p ∈ generate_link_opportunities data none sim topN, p.sourceOutlinks = 0 := by
  have hout : calculate_outlinks_count none = calculate_outlinks_count (some ([] : List Edge)) := by
    funext u
    rfl
  refine ⟨?_, rfl, ?_⟩
  · simp only [generate_link_opportunities, sortedOpportunities, hout]
    have hex : get_existing_links none = get_existing_links (some ([] : List Edge)) := rfl
    rw [hex]
  · intro p hp
    obtain ⟨t, ht, tIdx, hidx, s, hs, hmk⟩ := mem_generate hp
    obtain ⟨_, _, _, hout0, _, _⟩ := mkOpp_eq_some hmk
    rw [hout0]
    rfl

/-- C9 witness: a concrete run with no edge table, its first row reporting
zero outlinks. -/
theorem c9_witness :
    generate_link_opportunities [wpA, wpB, wpC] none simOne 50 =
      generate_link_opportunities [wpA, wpB, wpC] (some []) simOne 50 ∧
    c9Row.sourceOutlinks = 0 :=
  ⟨(c9_missing_edge_table [wpA, wpB, wpC] simOne 50).1,
    (c9_missing_edge_table [wpA, wpB, wpC] simOne 50).2.2 c9Row (by decide)⟩

/-- C10: the existing edge filter of the generator loops is sensitive to
direction: a candidate row is produced under edge set E exactly when it is
produced under the empty edge set and its exact ordered (source, target)
pair is not in E; an edge in the reverse direction alone never suppresses
the row. -/
theorem c10_suppression_is_direction_sensitive (addrs : List String)
    (dfPriority targets : List ScoredPage) (existing : List (String × String))
    (outCount : String → ℕ) (sim : ℕ → ℕ → ℚ) (p : Opp) :
    p ∈ opportunitiesList addrs dfPriority targets existing outCount sim ↔
      (p ∈ opportunitiesList addrs dfPriority targets [] outCount sim ∧
        (p.source, p.target) ∉ existing) := by
  rw [mem_opportunitiesList, mem_opportunitiesList]
  constructor
  · rintro ⟨t, ht, tIdx, hidx, s, hs, hmk⟩
    rw [mkOpp_existing_iff] at hmk
    exact ⟨⟨t, ht, tIdx, hidx, s, hs, hmk.1⟩, hmk.2⟩
  · rintro ⟨⟨t, ht, tIdx, hidx, s, hs, hmk⟩, hnot⟩
    refine ⟨t, ht, tIdx, hidx, s, hs, ?_⟩
    rw [mkOpp_existing_iff]
    exact ⟨hmk, hnot⟩

/-- C3: every row of the priority table carries the score
w_impr norm(impressions) + w_pos norm(1/(position+1)) +
w_link norm(1/(linkscore+1)) + w_depth norm(1/(depth+1)) over the sanitized
columns, with the configuration weights 0.3, 0.2, 0.3, 0.2 summing to one.
In this exact arithmetic model the score is total on every row, so the NaN
replacement of line 58 has nothing to replace (on an empty dataset there
are no rows at all, which is the NaN scenario the claim cites). -/
theorem c3_priority_score_formula (data : List RawPage) (sp : ScoredPage)
    (h : sp ∈ calculate_priority_score data) :
    sp.priorityScore =
      priorityWeightImpressions *
        normVal ((data.map sanitizePage).map (fun q => q.impressions)) sp.page.impressions +
      priorityWeightPosition *
        normVal ((data.map sanitizePage).map (fun q => 1 / (q.position + 1)))
          (1 / (sp.page.position + 1)) +
      priorityWeightLinkScore *
        normVal ((data.map sanitizePage).map (fun q => 1 / (q.linkScore + 1)))
          (1 / (sp.page.linkScore + 1)) +
      priorityWeightDepth *
        normVal ((data.map sanitizePage).map (fun q => 1 / (q.crawlDepth + 1)))
          (1 / (sp.page.crawlDepth + 1)) ∧
    priorityWeightImpressions + priorityWeightPosition + priorityWeightLinkScore +
      priorityWeightDepth = 1 := by
  constructor
  · unfold calculate_priority_score at h
    have h1 := (List.perm_insertionSort
      (fun a b : ScoredPage => b.priorityScore ≤ a.priorityScore) _).mem_iff.mp h
    rw [List.mem_map] at h1
    obtain ⟨q, hq, hsp⟩ := h1
    subst hsp
    simp only [scorePage]
    ring
  · norm_num [priorityWeightImpressions, priorityWeightPosition,
      priorityWeightLinkScore, priorityWeightDepth]

/-- C3 witness: the formula instantiated on a concrete two page dataset. -/
theorem c3_witness :
    c3Row.priorityScore =
      priorityWeightImpressions *
        normVal (c3Pages.map (fun q => q.impressions)) c3Row.page.impressions +
      priorityWeightPosition *
        normVal (c3Pages.map (fun q => 1 / (q.position + 1)))
          (1 / (c3Row.page.position + 1)) +
      priorityWeightLinkScore *
        normVal (c3Pages.map (fun q => 1 / (q.linkScore + 1)))
          (1 / (c3Row.page.linkScore + 1)) +
      priorityWeightDepth *
        normVal (c3Pages.map (fun q => 1 / (q.crawlDepth + 1)))
          (1 / (c3Row.page.crawlDepth + 1)) ∧
    priorityWeightImpressions + priorityWeightPosition + priorityWeightLinkScore +
      priorityWeightDepth = 1 :=
  c3_priority_score_formula [wpA, wpB] c3Row (by decide)

/-- C4 counterexample: a row whose Crawl Depth cell is missing is sanitized
to crawl depth 0 and not to the claimed metric default 1, because the
generic fill of line 34 (default 0) runs before the per metric fill with 1
of line 41 and leaves no NaN for the latter. -/
theorem c4_counterexample :
    (sanitizePage rawNanDepth).crawlDepth = 0 ∧ (sanitizePage rawNanDepth).crawlDepth ≠ 1 := by
  decide

/-- C4 amended: sanitization fills missing values with impressions 0,
position 100, link strength 0 and crawl depth 0 (not 1); infinite cells are
turned into missing ones and then filled at the second stage, which gives
impressions 0, position 100, link strength 0 and crawl depth 1; and every
metric is clipped to its valid domain (position to the interval from 1 to
100, link strength to the interval from 0 to 100, impressions and crawl
depth to nonnegative values). -/
theorem c4_sanitization_amended :
    (∀ rp : RawPage,
      (sanitizePage rp).impressions = sanitizeImpressions rp.impressions ∧
      (sanitizePage rp).position = sanitizePosition rp.position ∧
      (sanitizePage rp).linkScore = sanitizeLinkScore rp.linkScore ∧
      (sanitizePage rp).crawlDepth = sanitizeCrawlDepth rp.crawlDepth) ∧
    sanitizeImpressions .nan = 0 ∧ sanitizeImpressions .inf = 0 ∧
    sanitizeImpressions .ninf = 0 ∧ (∀ q, sanitizeImpressions (.num q) = max 0 q) ∧
    sanitizePosition .nan = 100 ∧ sanitizePosition .inf = 100 ∧
    sanitizePosition .ninf = 100 ∧ (∀ q, sanitizePosition (.num q) = min 100 (max 1 q)) ∧
    sanitizeLinkScore .nan = 0 ∧ sanitizeLinkScore .inf = 0 ∧
    sanitizeLinkScore .ninf = 0 ∧ (∀ q, sanitizeLinkScore (.num q) = min 100 (max 0 q)) ∧
    sanitizeCrawlDepth .nan = 0 ∧ sanitizeCrawlDepth .inf = 1 ∧
    sanitizeCrawlDepth .ninf = 1 ∧ (∀ q, sanitizeCrawlDepth (.num q) = max 0 q) :=
  ⟨fun _ => ⟨rfl, rfl, rfl, rfl⟩,
    by decide, by decide, by decide, fun q => rfl,
    by decide, by decide, by decide, fun q => rfl,
    by decide, by decide, by decide, fun q => rfl,
    by decide, by decide, by decide, fun q => rfl⟩

/-- C7: the normalizer keeps the column length, maps each entry x to
(x - min) / (max - min) when the column has spread, so that a minimal entry
goes to 0 and a maximal entry to 1, and sends every entry to 0 when all
values of the column are equal (max equals min). -/
theorem c7_normalize_unit_rescale (xs : List ℚ) (i : ℕ) (h : i < xs.length) :
    (normalizeSeries xs).length = xs.length ∧
    (colMax xs = colMin xs → (normalizeSeries xs).getD i 0 = 0) ∧
    (colMax xs ≠ colMin xs →
      (normalizeSeries xs).getD i 0 = (xs.getD i 0 - colMin xs) / (colMax xs - colMin xs) ∧
      (xs.getD i 0 = colMin xs → (normalizeSeries xs).getD i 0 = 0) ∧
      (xs.getD i 0 = colMax xs → (normalizeSeries xs).getD i 0 = 1)) := by
  have hget : ∀ f : ℚ → ℚ, (xs.map f).getD i 0 = f (xs.getD i 0) := by
    intro f
    rw [List.getD_eq_getElem?_getD, List.getD_eq_getElem?_getD, List.getElem?_map,
      List.getElem?_eq_getElem h]
    rfl
  refine ⟨by rw [normalizeSeries_eq_map, List.length_map], ?_, ?_⟩
  · intro heq
    rw [normalizeSeries_eq_map, hget]
    unfold normVal
    rw [if_pos heq, mul_zero]
  · intro hne
    have hv : (normalizeSeries xs).getD i 0 =
        (xs.getD i 0 - colMin xs) / (colMax xs - colMin xs) := by
      rw [normalizeSeries_eq_map, hget]
      unfold normVal
      rw [if_neg hne]
    refine ⟨hv, ?_, ?_⟩
    · intro hmin
      rw [hv, hmin, sub_self, zero_div]
    · intro hmax
      rw [hv, hmax]
      exact div_self (sub_ne_zero.mpr hne)

/-- C7 witness: the rescale on the concrete column 1, 3. -/
theorem c7_witness :
    (normalizeSeries [1, 3]).length = ([1, 3] : List ℚ).length ∧
    (colMax [1, 3] = colMin [1, 3] → (normalizeSeries [1, 3]).getD 0 0 = 0) ∧
    (colMax [1, 3] ≠ colMin [1, 3] →
      (normalizeSeries [1, 3]).getD 0 0 =
        (([1, 3] : List ℚ).getD 0 0 - colMin [1, 3]) / (colMax [1, 3] - colMin [1, 3]) ∧
      (([1, 3] : List ℚ).getD 0 0 = colMin [1, 3] → (normalizeSeries [1, 3]).getD 0 0 = 0) ∧
      (([1, 3] : List ℚ).getD 0 0 = colMax [1, 3] → (normalizeSeries [1, 3]).getD 0 0 = 1)) :=
  c7_normalize_unit_rescale [1, 3] 0 (by decide)

/-- C8: the scored fields of a page do not depend on the order of the data
rows: a permutation of the raw table leaves the per page scoring function
unchanged, and the returned sorted tables are permutations of each other. -/
theorem c8_priority_row_order_invariant (raw1 raw2 : List RawPage) (h : raw1.Perm raw2) :
    (∀ p : Page, scorePage (raw1.map sanitizePage) p = scorePage (raw2.map sanitizePage) p) ∧
    (calculate_priority_score raw1).Perm (calculate_priority_score raw2) := by
  have hpages : (raw1.map sanitizePage).Perm (raw2.map sanitizePage) := h.map sanitizePage
  have hfun := scorePage_perm hpages
  constructor
  · intro p
    rw [hfun]
  · unfold calculate_priority_score
    have h1 : ((raw1.map sanitizePage).map (scorePage (raw1.map sanitizePage))).Perm
        ((raw2.map sanitizePage).map (scorePage (raw2.map sanitizePage))) := by
      rw [hfun]
      exact hpages.map _
    exact (List.perm_insertionSort _ _).trans
      (h1.trans (List.perm_insertionSort _ _).symm)

/-- C8 witness: a concrete swap of two rows, probed at a third page. -/
theorem c8_witness :
    scorePage ([wpA, wpB].map sanitizePage) (sanitizePage wpC) =
      scorePage ([wpB, wpA].map sanitizePage) (sanitizePage wpC) ∧
    (calculate_priority_score [wpA, wpB]).Perm (calculate_priority_score [wpB, wpA]) :=
  ⟨(c8_priority_row_order_invariant [wpA, wpB] [wpB, wpA]
      (List.Perm.swap wpB wpA [])).1 (sanitizePage wpC),
    (c8_priority_row_order_invariant [wpA, wpB] [wpB, wpA]
      (List.Perm.swap wpB wpA [])).2⟩

/-- C6 amended: whenever the vectorizer succeeds on a corpus, the computed
matrix is symmetric and every entry lies in the unit interval; the diagonal
entry of a document equals 1 exactly under the proviso that its tf idf row
is nonzero. A document with a zero row (all its tokens stopped, or an empty
address) gets diagonal 0, against the unconditional 1.0 of the claim. -/
theorem c6_similarity_matrix_amended (corpus : List String) (M : ℕ → ℕ → ℝ)
    (hM : compute_similarity_matrix corpus = some M) (i j : ℕ)
    (_hi : i < corpus.length) (_hj : j < corpus.length) :
    M i j = M j i ∧ 0 ≤ M i j ∧ M i j ≤ 1 ∧
    (i = j → rowNorm corpus (corpus.getD i "") ≠ 0 → M i j = 1) := by
  have hMs := compute_similarity_matrix_eq_some hM
  subst hMs
  refine ⟨cosSim_comm corpus _ _, cosSim_nonneg corpus _ _, cosSim_le_one corpus _ _, ?_⟩
  intro hij hnz
  subst hij
  exact cosSim_self_eq_one hnz

/-- C6 amended witness: on the one document corpus dog the vectorizer
succeeds and the diagonal entry is 1. -/
theorem c6_witness : simFun ["dog"] 0 0 = 1 := by
  have hv : ¬ vocabAll ["dog"] = [] := by decide
  have hM : compute_similarity_matrix ["dog"] = some (simFun ["dog"]) := by
    unfold compute_similarity_matrix
    rw [if_neg hv]
  have hvoc : vocab ["dog"] = ["dog"] := by decide
  have hnz : rowNorm ["dog"] "dog" ≠ 0 := by
    unfold rowNorm
    rw [hvoc]
    have hsum : (∑ t ∈ (["dog"] : List String).toFinset,
        tfidfWeight ["dog"] "dog" t ^ 2) = tfidfWeight ["dog"] "dog" "dog" ^ 2 := by
      simp
    rw [hsum]
    have hdf : df ["dog"] "dog" = 1 := by decide
    have hidf : idf ["dog"] "dog" = 1 := by
      unfold idf
      rw [hdf]
      norm_num
    have htf : tf "dog" "dog" = 1 := by decide
    have hw : tfidfWeight ["dog"] "dog" "dog" = 1 := by
      unfold tfidfWeight
      rw [htf, hidf]
      norm_num
    rw [hw, one_pow, Real.sqrt_one]
    exact one_ne_zero
  exact (c6_similarity_matrix_amended ["dog"] (simFun ["dog"]) hM 0 0
    (by decide) (by decide)).2.2.2 rfl hnz

/-- C6 counterexample: the corpus of the empty address and the address dog
is nonempty, the vectorizer succeeds on it, yet the first diagonal entry of
the computed matrix is 0 and not 1.0: the empty document has a zero tf idf
row. -/
theorem c6_counterexample :
    compute_similarity_matrix ["", "dog"] = some (simFun ["", "dog"]) ∧
    simFun ["", "dog"] 0 0 = 0 ∧ simFun ["", "dog"] 0 0 ≠ 1 := by
  have hz : simFun ["", "dog"] 0 0 = 0 := by
    show cosSim ["", "dog"] "" "" = 0
    have hw : ∀ t, tfidfWeight ["", "dog"] "" t = 0 := by
      intro t
      unfold tfidfWeight tf
      have hfeat : features "" = [] := rfl
      rw [hfeat]
      simp
    have hrow : ∀ t, tfidfRow ["", "dog"] "" t = 0 := by
      intro t
      unfold tfidfRow
      rw [hw, zero_div]
    have hdot : dotT ["", "dog"] "" "" = 0 := by
      unfold dotT
      refine Finset.sum_eq_zero fun t _ => ?_
      rw [hrow, zero_mul]
    unfold cosSim
    rw [hdot, zero_div]
  have hv : ¬ vocabAll ["", "dog"] = [] := by decide
  refine ⟨?_, hz, ?_⟩
  · unfold compute_similarity_matrix
    rw [if_neg hv]
  · rw [hz]
    norm_num

end SEO
